import Mathlib

/-!
Shallow embedding of the streaming lexical scanner in `src/token.c`
(repository samthor/prsr).

Bytes are modelled as `Nat` (0..255); the input buffer is a `List Nat`.
The C buffer is NUL-terminated with no interior NUL byte (it is produced
by `prsr_init_token` via `strlen`), so reading past the end yields 0.
C `int` return codes are modelled as `Int`.  The loops of `eat_token`
are written as fuel-indexed structural recursions; every call site
passes fuel that is provably larger than the number of iterations the
loop can perform (each iteration either stops or moves the scan position
right, and the scan position is bounded by the buffer length), so the
fuel-exhaustion branches are never taken.

The expression-context oracle `tv.check(tv.context)` is modelled by
passing the value `v : Int` that the oracle would return during this
call; the number of times the C code would actually invoke the oracle
is returned in the `consults` field.
-/

set_option autoImplicit false

namespace Prsr

/-- C `isspace` in the C locale: space (32) and 9..13. -/
def isspace (c : Nat) : Bool :=
  decide (c = 32 ∨ (9 ≤ c ∧ c ≤ 13))

/-- C `isalpha` in the C locale over byte values: ASCII letters. -/
def isalpha (c : Nat) : Bool :=
  decide ((65 ≤ c ∧ c ≤ 90) ∨ (97 ≤ c ∧ c ≤ 122))

/-- C `isdigit` over byte values: ASCII digits. -/
def isdigit (c : Nat) : Bool :=
  decide (48 ≤ c ∧ c ≤ 57)

/-- C `isalnum` in the C locale over byte values: letters and digits. -/
def isalnum (c : Nat) : Bool :=
  isalpha c || isdigit c

/-- Modelled from the spec: `isnum` comes from `utils.h`, which is not in
the sources; per the spec ("If `c` is an ASCII digit") it recognises the
ASCII digits. -/
def isnum (c : Nat) : Bool :=
  isdigit c

/-! Token kinds.  Modelled from the spec: the header declaring the
`TOKEN_*` enumeration is absent from the sources; the scanner relies
only on the kinds being distinct and nonnegative (the sentinel "no rule
matched" uses -1), so the concrete values below are arbitrary. -/

def TOKEN_EOF : Int := 0
def TOKEN_COMMENT : Int := 1
def TOKEN_SEMICOLON : Int := 2
def TOKEN_TERNARY : Int := 3
def TOKEN_COLON : Int := 4
def TOKEN_COMMA : Int := 5
def TOKEN_PAREN : Int := 6
def TOKEN_ARRAY : Int := 7
def TOKEN_BRACE : Int := 8
def TOKEN_CLOSE : Int := 9
def TOKEN_STRING : Int := 10
def TOKEN_REGEXP : Int := 11
def TOKEN_NUMBER : Int := 12
def TOKEN_DOT : Int := 13
def TOKEN_SPREAD : Int := 14
def TOKEN_ARROW : Int := 15
def TOKEN_OP : Int := 16
def TOKEN_T_BRACE : Int := 17
def TOKEN_LIT : Int := 18

/-- `FLAG__PENDING_T_BRACE` from token.c. -/
def FLAG_PENDING_T_BRACE : Nat := 1

/-- `FLAG__RESUME_LIT` from token.c. -/
def FLAG_RESUME_LIT : Nat := 2

/-- `__STACK_SIZE`: the bracket-stack capacity.  The defining header is
absent from the sources; the spec fixes it at 256 entries. -/
def STACK_SIZE : Nat := 256

/-- The scanner state `tokendef` of token.c.  The C bit-stack (one bit
per entry, packed into `uint32_t` words) is modelled as a `List Bool`
indexed by entry position. -/
structure tokendef where
  buf : List Nat
  len : Nat
  curr : Nat
  line_no : Nat
  flag : Nat
  depth : Nat
  stack : List Bool
  deriving Repr, DecidableEq

/-- The output token of `prsr_next_token`.  The C `p` field is a pointer
`d->buf + d->curr`; it is modelled as the byte offset into the buffer. -/
structure token where
  p : Nat
  len : Nat
  line_no : Nat
  type : Int
  lit_next_colon : Bool
  deriving Repr, DecidableEq

/-- The `eat_out` pair filled in by `eat_token`. -/
structure eat_out where
  len : Nat
  type : Int
  deriving Repr, DecidableEq

/-- Result of `eat_token`: the C return value, the `eat_out` output
parameter, the mutated scanner state, and the number of oracle
consultations performed during the call. -/
structure EatRes where
  ret : Int
  eat : eat_out
  d : tokendef
  consults : Nat
  deriving Repr, DecidableEq

/-- Result of `prsr_next_token`: the C return value, the output token
(`none` when the C code returns before writing it), the mutated scanner
state, and the number of oracle consultations. -/
structure PrsrRes where
  ret : Int
  tok : Option token
  d : tokendef
  consults : Nat
  deriving Repr, DecidableEq

/-- Raw byte read `buf[i]` on the NUL-terminated buffer: 0 past the
end (the terminating NUL; interior NULs do not occur). -/
def byteAt (buf : List Nat) (i : Nat) : Nat :=
  buf.getD i 0

/-- `peek_char` from token.c, on explicit components: returns
`buf[curr + k]` when `curr + k < blen`, else 0. -/
def peekAt (buf : List Nat) (blen curr k : Nat) : Nat :=
  if curr + k < blen then byteAt buf (curr + k) else 0

/-- `peek_char(d, len)` from token.c. -/
def peek_char (d : tokendef) (k : Nat) : Nat :=
  peekAt d.buf d.len d.curr k

/-- Whether the byte sequence `pat` occurs in `buf` starting at `j`. -/
def matchAt (buf : List Nat) (j : Nat) (pat : List Nat) : Bool :=
  (buf.drop j).take pat.length == pat

/-- C `strstr` over the buffer: the position of the first occurrence of
`pat` at index `j` or later, if any.  Fuel-indexed; `buf.length + 1`
fuel always suffices. -/
def findFrom (fuel : Nat) (buf pat : List Nat) (j : Nat) : Option Nat :=
  match fuel with
  | 0 => none
  | fuel + 1 =>
    if j < buf.length then
      if matchAt buf j pat then some j else findFrom fuel buf pat (j + 1)
    else none

/-- Number of newline bytes in `buf` at indices in `[a, b)`; models the
`strchr`-based counting loop of the block-comment scanner. -/
def countNl (buf : List Nat) (a b : Nat) : Nat :=
  ((buf.drop a).take (b - a)).countP (fun x => x == 10)

/-- `stack_inc` from token.c: push one bit, failing (-1) at capacity. -/
def stack_inc (d : tokendef) (t_brace : Bool) : Int × tokendef :=
  if d.depth = STACK_SIZE then (-1, d)
  else (0, { d with stack := d.stack.set d.depth t_brace, depth := d.depth + 1 })

/-- `stack_dec` from token.c: pop one bit, failing (-1) on empty;
returns 1 when the popped bit is set, else 0. -/
def stack_dec (d : tokendef) : Int × tokendef :=
  if d.depth = 0 then (-1, d)
  else
    ((if d.stack.getD (d.depth - 1) false then 1 else 0), { d with depth := d.depth - 1 })

/-- The inter-token whitespace loop at the head of `prsr_next_token`:
advances `curr` over whitespace, incrementing `line_no` at each newline;
returns the new `(curr, line_no)`.  Reads the buffer raw (the C code
indexes `d->buf` directly, stopping at the terminating NUL). -/
def skipWs (fuel : Nat) (buf : List Nat) (curr line : Nat) : Nat × Nat :=
  match fuel with
  | 0 => (curr, line)
  | fuel + 1 =>
    let c := byteAt buf curr
    if c = 10 then skipWs fuel buf (curr + 1) (line + 1)
    else if isspace c then skipWs fuel buf (curr + 1) line
    else (curr, line)

/-- The inner whitespace loop of `lookahead_char`: first index at or
after `p` whose byte is not whitespace. -/
def skipWsIdx (fuel : Nat) (buf : List Nat) (p : Nat) : Nat :=
  match fuel with
  | 0 => p
  | fuel + 1 =>
    if isspace (byteAt buf p) then skipWsIdx fuel buf (p + 1) else p

/-- The comment-skipping loop of `lookahead_char` from token.c: from
position `p`, skip whitespace and comments and return the first
significant byte (0 at end of input, or when a block comment is
unterminated). -/
def lookahead_loop (fuel : Nat) (buf : List Nat) (p : Nat) : Nat :=
  match fuel with
  | 0 => 0
  | fuel + 1 =>
    let q := skipWsIdx (buf.length + 1) buf p
    let c := byteAt buf q
    if c = 47 then
      let nx := byteAt buf (q + 1)
      if nx = 47 then
        match findFrom (buf.length + 1) buf [10] (q + 2) with
        | none => 0
        | some j => lookahead_loop fuel buf (j + 1)
      else if nx = 42 then
        match findFrom (buf.length + 1) buf [42, 47] (q + 2) with
        | none => 0
        | some j => lookahead_loop fuel buf (j + 2)
      else c
    else c

/-- `lookahead_char` from token.c: inside a template literal (resume
flag set) it short-circuits to a synthetic backtick (96). -/
def lookahead_char (d : tokendef) : Nat :=
  if d.flag &&& FLAG_RESUME_LIT ≠ 0 then 96
  else lookahead_loop (d.buf.length + 2) d.buf d.curr

/-- The string-scanner loop of `eat_token` (`start_string` /
`resume_lit`).  `start` is the terminator byte; `len` is the offset of
the next byte to examine (the C loop pre-increments `len`, so the
normal entry passes 1 and the resume entry passes 0).  Returns the
final token length, the flag to store into `d->flag` (1 when a `${` was
seen inside a template literal), and the number of newlines consumed. -/
def string_run (fuel : Nat) (buf : List Nat) (blen curr start len : Nat) :
    Nat × Nat × Nat :=
  match fuel with
  | 0 => (len, 0, 0)
  | fuel + 1 =>
    let c := peekAt buf blen curr len
    if c = 0 then (len, 0, 0)
    else if c = start then (len + 1, 0, 0)
    else if c = 92 then
      let c2 := peekAt buf blen curr (len + 1)
      let dl := if c2 = 10 then 1 else 0
      let r := string_run fuel buf blen curr start (len + 2)
      (r.1, r.2.1, r.2.2 + dl)
    else if start = 96 ∧ c = 36 ∧ peekAt buf blen curr (len + 1) = 123 then
      (len, FLAG_PENDING_T_BRACE, 0)
    else
      let dl := if c = 10 then 1 else 0
      let r := string_run fuel buf blen curr start (len + 1)
      (r.1, r.2.1, r.2.2 + dl)

/-- The operator-run loop of `eat_token`: consume up to `allowed`
repetitions of `start`; returns the final `len` (the byte at that
offset is the first one that differs, or the one right past the run). -/
def op_run (fuel : Nat) (buf : List Nat) (blen curr start allowed len : Nat) : Nat :=
  match fuel with
  | 0 => len
  | fuel + 1 =>
    if len < allowed then
      if peekAt buf blen curr (len + 1) = start then
        op_run fuel buf blen curr start allowed (len + 1)
      else len + 1
    else len

/-- The operator block of `eat_token` after the oracle decision: the
run loop followed by the arrow / doubled-pair / assignment-suffix
special cases.  Returns the token length and kind. -/
def op_scan (buf : List Nat) (blen curr start : Nat) : Nat × Int :=
  let allowed := if start = 42 ∨ start = 60 then 2 else if start = 62 then 3 else 1
  let l1 := op_run 4 buf blen curr start allowed 0
  let c1 := peekAt buf blen curr l1
  if start = 61 ∧ c1 = 62 then (2, TOKEN_ARROW)
  else if c1 = start ∧ (start = 43 ∨ start = 45 ∨ start = 124 ∨ start = 38) then
    (l1 + 1, TOKEN_OP)
  else if c1 = 61 then
    if peekAt buf blen curr (l1 + 1) = 61 ∧ (start = 61 ∨ start = 33) then
      (l1 + 2, TOKEN_OP)
    else (l1 + 1, TOKEN_OP)
  else (l1, TOKEN_OP)

/-- The number loop of `eat_token`: extend over alphanumerics and dots;
`len` is the offset of the byte under examination (the scan starts at
1, i.e. at `next`). -/
def num_run (fuel : Nat) (buf : List Nat) (blen curr len : Nat) : Nat :=
  match fuel with
  | 0 => len
  | fuel + 1 =>
    let c := peekAt buf blen curr len
    if isalnum c || c == 46 then num_run fuel buf blen curr (len + 1) else len

/-- The body of the regular-expression do-while loop of `eat_token`.
`ice` is `is_charexpr`; `c` is the byte currently under examination at
offset `len` (the loop is a do-while: the body runs once even when `c`
is already 0).  Returns the offset just past the loop together with the
number of newlines counted. -/
def regexp_run (fuel : Nat) (buf : List Nat) (blen curr : Nat) (ice : Bool)
    (len c : Nat) : Nat × Nat :=
  match fuel with
  | 0 => (len, 0)
  | fuel + 1 =>
    if c = 91 then
      let c2 := peekAt buf blen curr (len + 1)
      if c2 = 0 then (len + 1, 0)
      else regexp_run fuel buf blen curr true (len + 1) c2
    else if c = 93 then
      let c2 := peekAt buf blen curr (len + 1)
      if c2 = 0 then (len + 1, 0)
      else regexp_run fuel buf blen curr false (len + 1) c2
    else if c = 92 then
      let cE := peekAt buf blen curr (len + 1)
      let dl := if cE = 10 then 1 else 0
      let c2 := peekAt buf blen curr (len + 2)
      if c2 = 0 then (len + 2, dl)
      else
        let r := regexp_run fuel buf blen curr ice (len + 2) c2
        (r.1, r.2 + dl)
    else if ice = false ∧ c = 47 then (len + 1, 0)
    else
      let dl := if c = 10 then 1 else 0
      let c2 := peekAt buf blen curr (len + 1)
      if c2 = 0 then (len + 1, dl)
      else
        let r := regexp_run fuel buf blen curr ice (len + 1) c2
        (r.1, r.2 + dl)

/-- The trailing-flags loop of the regexp scanner: extend over ASCII
alphanumerics starting at offset `len`. -/
def alnum_run (fuel : Nat) (buf : List Nat) (blen curr len : Nat) : Nat :=
  match fuel with
  | 0 => len
  | fuel + 1 =>
    if isalnum (peekAt buf blen curr len) then alnum_run fuel buf blen curr (len + 1)
    else len

/-- The inner `while (c && c != '}')` loop of the literal scanner's
backslash-brace escape: first offset at or after `len` whose byte is 0
or a closing brace. -/
def lit_brace_run (fuel : Nat) (buf : List Nat) (blen curr len : Nat) : Nat :=
  match fuel with
  | 0 => len
  | fuel + 1 =>
    let c := peekAt buf blen curr len
    if c ≠ 0 ∧ c ≠ 125 then lit_brace_run fuel buf blen curr (len + 1) else len

/-- The identifier/literal do-while loop of `eat_token`.  `c` is the
byte under examination; after a backslash-brace escape the loop
continues with a stale `c` (the brace that ended the inner loop), which
is modelled by passing `c` explicitly. -/
def lit_run (fuel : Nat) (buf : List Nat) (blen curr len c : Nat) : Nat :=
  match fuel with
  | 0 => len
  | fuel + 1 =>
    if c = 92 then
      let c2 := peekAt buf blen curr (len + 2)
      if c2 = 123 then
        let li := lit_brace_run (blen + 2) buf blen curr (len + 2)
        let ce := peekAt buf blen curr li
        if ce = 0 then li + 1 else lit_run fuel buf blen curr (li + 1) ce
      else if c2 = 0 then len + 2
      else lit_run fuel buf blen curr (len + 2) c2
    else
      let valid := ((if len = 0 then isalpha c else isalnum c) || c == 36 || c == 95
        || decide (128 ≤ c))
      if valid then
        let c2 := peekAt buf blen curr (len + 1)
        if c2 = 0 then len + 1 else lit_run fuel buf blen curr (len + 1) c2
      else len

/-- The characters of `strchr("=&|^~!%/+-", c)` other than 47 plus the
star/angle cases: the bytes that start the operator block when the byte
is not a slash. -/
def isOpChar (c : Nat) : Prop :=
  c = 61 ∨ c = 38 ∨ c = 124 ∨ c = 94 ∨ c = 126 ∨ c = 33 ∨ c = 37 ∨ c = 43 ∨ c = 45
    ∨ c = 42 ∨ c = 60 ∨ c = 62

instance (c : Nat) : Decidable (isOpChar c) := by
  unfold isOpChar; infer_instance

/-- The EOF arm of `eat_token` (token.c lines 60-65): emit EOF, and
return 1 (a soft positive) when brackets are still open. -/
def eat_eof (d : tokendef) : EatRes :=
  { ret := if 0 < d.depth then 1 else 0, eat := ⟨0, TOKEN_EOF⟩, d := d, consults := 0 }

/-- The pending `${` arm of `eat_token` (lines 68-70): emit T_BRACE of
length 2 and push a template-marked brace. -/
def eat_tbrace (d : tokendef) : EatRes :=
  let r := stack_inc d true
  { ret := r.1, eat := ⟨2, TOKEN_T_BRACE⟩, d := r.2, consults := 0 }

/-- The template-resumption arm of `eat_token` (`resume_lit`, lines
211-213): re-enter the string scanner with terminator backtick and
`len = -1`, pre-incremented to 0. -/
def eat_resume (d : tokendef) : EatRes :=
  let r := string_run (d.len + 2) d.buf d.len d.curr 96 0
  { ret := 0, eat := ⟨r.1, TOKEN_STRING⟩,
    d := { d with flag := r.2.1, line_no := d.line_no + r.2.2 }, consults := 0 }

/-- The comment arm of `eat_token` (lines 75-111), entered when the
bytes at the cursor are `//` or `/*`; `nx` is the second byte.  A line
comment stops before its newline; a block comment swallows the closing
`*/` and adds the newlines it contains to `line_no`; an unterminated
comment of either kind extends to the end of the buffer. -/
def eat_comment (d : tokendef) (nx : Nat) : EatRes :=
  if nx = 47 then
    match findFrom (d.buf.length + 1) d.buf [10] (d.curr + 2) with
    | none => { ret := 0, eat := ⟨d.len - d.curr, TOKEN_COMMENT⟩, d := d, consults := 0 }
    | some j =>
      -- len = at - search + 2 = j - curr; the newline is not included
      { ret := 0, eat := ⟨j - d.curr, TOKEN_COMMENT⟩, d := d, consults := 0 }
  else
    match findFrom (d.buf.length + 1) d.buf [42, 47] (d.curr + 2) with
    | none => { ret := 0, eat := ⟨d.len - d.curr, TOKEN_COMMENT⟩, d := d, consults := 0 }
    | some j =>
      -- count the newlines between search and at, then eat the closer
      { ret := 0, eat := ⟨j - d.curr + 2, TOKEN_COMMENT⟩,
        d := { d with line_no := d.line_no + countNl d.buf (d.curr + 2) j }, consults := 0 }

/-- The open-bracket cases of the switch (lines 127-137). -/
def eat_open (d : tokendef) (t : Int) : EatRes :=
  let r := stack_inc d false
  { ret := r.1, eat := ⟨1, t⟩, d := r.2, consults := 0 }

/-- The `)` and `]` cases of the switch (lines 139-145): the result of
`stack_dec` — -1 on underflow, 1 when the popped bit was a template
brace — is returned as is. -/
def eat_close (d : tokendef) : EatRes :=
  let r := stack_dec d
  { ret := r.1, eat := ⟨1, TOKEN_CLOSE⟩, d := r.2, consults := 0 }

/-- The `}` case of the switch (lines 147-155): underflow is returned
before `_CONSUME` runs (the model fills `eat` with a value the caller
never reads); a popped template bit arms the resume flag and the call
succeeds. -/
def eat_close_brace (d : tokendef) : EatRes :=
  let r := stack_dec d
  if r.1 < 0 then { ret := r.1, eat := ⟨0, TOKEN_EOF⟩, d := r.2, consults := 0 }
  else
    { ret := 0, eat := ⟨1, TOKEN_CLOSE⟩,
      d := if 0 < r.1 then { r.2 with flag := FLAG_RESUME_LIT } else r.2, consults := 0 }

/-- The regular-expression arm (lines 255-283), entered for a
non-comment slash once the oracle answered 0: the do-while body starting
at `len = 1` with `c = next`, then the trailing-flags run. -/
def eat_regexp (d : tokendef) : EatRes :=
  let r := regexp_run (d.len + 2) d.buf d.len d.curr false 1 (peek_char d 1)
  let l2 := alnum_run (d.len + 2) d.buf d.len d.curr r.1
  { ret := 0, eat := ⟨l2, TOKEN_REGEXP⟩,
    d := { d with line_no := d.line_no + r.2 }, consults := 1 }

/-- The operator arm (lines 160-203) packaged as an `EatRes`; `k` is
the number of oracle consultations charged to this path (1 when the
operator is a slash, else 0). -/
def eat_op (d : tokendef) (c k : Nat) : EatRes :=
  let r := op_scan d.buf d.len d.curr c
  { ret := 0, eat := ⟨r.1, r.2⟩, d := d, consults := k }

/-- The slash dispatch inside the ops block (lines 161-168): a negative
oracle answer is returned verbatim (`eat` is left unwritten in C; the
model fills a value the caller never reads), 0 falls through to the
regexp scanner, positive scans the slash as an operator. -/
def eat_slash (d : tokendef) (v : Int) : EatRes :=
  if v < 0 then { ret := v, eat := ⟨0, TOKEN_EOF⟩, d := d, consults := 1 }
  else if v = 0 then eat_regexp d
  else eat_op d 47 1

/-- The string arm (lines 207-231) for an opening quote `c`. -/
def eat_string (d : tokendef) (c : Nat) : EatRes :=
  let r := string_run (d.len + 2) d.buf d.len d.curr c 1
  { ret := 0, eat := ⟨r.1, TOKEN_STRING⟩,
    d := { d with flag := r.2.1, line_no := d.line_no + r.2.2 }, consults := 0 }

/-- The number arm (lines 235-244). -/
def eat_number (d : tokendef) : EatRes :=
  { ret := 0, eat := ⟨num_run (d.len + 2) d.buf d.len d.curr 1, TOKEN_NUMBER⟩,
    d := d, consults := 0 }

/-- The dot arm (lines 248-253): spread `...` or a lone dot. -/
def eat_dot (d : tokendef) (nx : Nat) : EatRes :=
  if nx = 46 ∧ peek_char d 2 = 46 then
    { ret := 0, eat := ⟨3, TOKEN_SPREAD⟩, d := d, consults := 0 }
  else { ret := 0, eat := ⟨1, TOKEN_DOT⟩, d := d, consults := 0 }

/-- The literal arm and the no-rule sentinel (lines 287-316). -/
def eat_lit (d : tokendef) (c : Nat) : EatRes :=
  let l := lit_run (d.len + 2) d.buf d.len d.curr 0 c
  if l ≠ 0 then { ret := 0, eat := ⟨l, TOKEN_LIT⟩, d := d, consults := 0 }
  else { ret := 0, eat := ⟨0, -1⟩, d := d, consults := 0 }

/-- The dispatcher of `eat_token` below the comment block: the switch
over unambiguous ascii, the ops block (with the oracle decision for a
slash), strings, numbers, dots, literals. -/
def eat_dispatch (d : tokendef) (v : Int) (c nx : Nat) : EatRes :=
  if c = 59 then { ret := 0, eat := ⟨1, TOKEN_SEMICOLON⟩, d := d, consults := 0 }
  else if c = 63 then { ret := 0, eat := ⟨1, TOKEN_TERNARY⟩, d := d, consults := 0 }
  else if c = 58 then { ret := 0, eat := ⟨1, TOKEN_COLON⟩, d := d, consults := 0 }
  else if c = 44 then { ret := 0, eat := ⟨1, TOKEN_COMMA⟩, d := d, consults := 0 }
  else if c = 40 then eat_open d TOKEN_PAREN
  else if c = 91 then eat_open d TOKEN_ARRAY
  else if c = 123 then eat_open d TOKEN_BRACE
  else if c = 41 ∨ c = 93 then eat_close d
  else if c = 125 then eat_close_brace d
  else if c = 47 then eat_slash d v
  else if isOpChar c then eat_op d c 0
  else if c = 39 ∨ c = 34 ∨ c = 96 then eat_string d c
  else if isnum c = true ∨ (c = 46 ∧ isnum nx = true) then eat_number d
  else if c = 46 then eat_dot d nx
  else eat_lit d c

/-- `eat_token` from token.c.  `v` is the value the expression-context
oracle returns if consulted during this call.  The function clears the
flag byte, handles EOF and the two flag-forced paths, then the comment
block, then dispatches on the byte at the cursor. -/
def eat_token (d0 : tokendef) (v : Int) : EatRes :=
  let d : tokendef := { d0 with flag := 0 }
  let c := peek_char d 0
  if c = 0 then eat_eof d
  else if d0.flag &&& FLAG_PENDING_T_BRACE ≠ 0 then eat_tbrace d
  else if d0.flag &&& FLAG_RESUME_LIT ≠ 0 then eat_resume d
  else
    let nx := peek_char d 1
    if c = 47 ∧ (nx = 47 ∨ nx = 42) then eat_comment d nx
    else eat_dispatch d v c nx

/-- The scanner state after the whitespace loop at the head of
`prsr_next_token`. -/
def wsState (d : tokendef) : tokendef :=
  let r := skipWs (d.buf.length + 1) d.buf d.curr d.line_no
  { d with curr := r.1, line_no := r.2 }

/-- `prsr_next_token` from token.c. -/
def prsr_next_token (d00 : tokendef) (v : Int) : PrsrRes :=
  let d1 := wsState d00
  let tokLine := d1.line_no
  let e := eat_token d1 v
  if e.ret < 0 then { ret := e.ret, tok := none, d := e.d, consults := e.consults }
  else if e.eat.type < 0 then
    -- failed at this position
    { ret := (e.d.curr : Int), tok := none, d := e.d, consults := e.consults }
  else
    let d2 : tokendef := { e.d with curr := e.d.curr + e.eat.len }
    let lnc := if e.eat.type = TOKEN_LIT then lookahead_char d2 == 58 else false
    { ret := 0,
      tok := some { p := e.d.curr, len := e.eat.len, line_no := tokLine,
                    type := e.eat.type, lit_next_colon := lnc },
      d := d2, consults := e.consults }

/-- `prsr_init_token` from token.c: `len` is `strlen(p)`, which equals
the list length because the buffer holds no NUL byte. -/
def prsr_init_token (buf : List Nat) : tokendef :=
  { buf := buf, len := buf.length, curr := 0, line_no := 1, flag := 0, depth := 0,
    stack := List.replicate STACK_SIZE false }

/-- Run `n` successive `prsr_next_token` calls.  The oracle is a stream
`o : Nat → Int` indexed by the number of consultations made so far
(threaded through `k`).  Returns the per-call results, the final state,
and the final consultation count. -/
def runN (o : Nat → Int) : Nat → tokendef → Nat → List (Int × Option token) × tokendef × Nat
  | 0, d, k => ([], d, k)
  | n + 1, d, k =>
    let r := prsr_next_token d (o k)
    let rest := runN o n r.d (k + r.consults)
    ((r.ret, r.tok) :: rest.1, rest.2.1, rest.2.2)

/-- The line numbers of the tokens actually emitted by a run. -/
def tokenLines (l : List (Int × Option token)) : List Nat :=
  l.filterMap (fun x => x.2.map token.line_no)

/-- The return codes of a run. -/
def runRets (l : List (Int × Option token)) : List Int :=
  l.map (fun x => x.1)

/-- The `(p, len, line_no, type)` quadruples of the emitted tokens. -/
def runToks (l : List (Int × Option token)) : List (Option (Nat × Nat × Nat × Int)) :=
  l.map (fun x => x.2.map (fun t => (t.p, t.len, t.line_no, t.type)))

/-! Basic facts about the state-manipulating helpers. -/

@[simp] theorem peek_char_flag_update (d : tokendef) (f k : Nat) :
    peek_char { d with flag := f } k = peek_char d k := rfl

theorem stack_inc_ret_neg (d : tokendef) (b : Bool) :
    (stack_inc d b).1 < 0 ↔ d.depth = STACK_SIZE := by
  unfold stack_inc; split <;> simp_all

theorem stack_dec_ret_neg (d : tokendef) :
    (stack_dec d).1 < 0 ↔ d.depth = 0 := by
  unfold stack_dec
  split
  · simp_all
  · split <;> simp_all

@[simp] theorem stack_inc_line_no (d : tokendef) (b : Bool) :
    (stack_inc d b).2.line_no = d.line_no := by
  unfold stack_inc; split <;> rfl

@[simp] theorem stack_dec_line_no (d : tokendef) :
    (stack_dec d).2.line_no = d.line_no := by
  unfold stack_dec; split <;> rfl

@[simp] theorem wsState_buf (d : tokendef) : (wsState d).buf = d.buf := rfl

@[simp] theorem wsState_len (d : tokendef) : (wsState d).len = d.len := rfl

@[simp] theorem wsState_flag (d : tokendef) : (wsState d).flag = d.flag := rfl

@[simp] theorem wsState_depth (d : tokendef) : (wsState d).depth = d.depth := rfl

@[simp] theorem wsState_stack (d : tokendef) : (wsState d).stack = d.stack := rfl

theorem wsState_curr (d : tokendef) :
    (wsState d).curr = (skipWs (d.buf.length + 1) d.buf d.curr d.line_no).1 := rfl

theorem wsState_line_no (d : tokendef) :
    (wsState d).line_no = (skipWs (d.buf.length + 1) d.buf d.curr d.line_no).2 := rfl

/-- The conditions under which a single `eat_token` call fails hard,
read off the dispatcher: not at EOF, and either the forced `${` push
overflows the stack, or (no flag forced path, not a comment) an open
bracket overflows, a close bracket underflows, or the byte is a
non-comment slash and the oracle reports failure. -/
def eat_hard_fail (d : tokendef) (v : Int) : Prop :=
  peek_char d 0 ≠ 0 ∧
    ((d.flag &&& FLAG_PENDING_T_BRACE ≠ 0 ∧ d.depth = STACK_SIZE)
      ∨ (d.flag &&& FLAG_PENDING_T_BRACE = 0 ∧ d.flag &&& FLAG_RESUME_LIT = 0
          ∧ ¬(peek_char d 0 = 47 ∧ (peek_char d 1 = 47 ∨ peek_char d 1 = 42))
          ∧ (((peek_char d 0 = 40 ∨ peek_char d 0 = 91 ∨ peek_char d 0 = 123)
                ∧ d.depth = STACK_SIZE)
             ∨ ((peek_char d 0 = 41 ∨ peek_char d 0 = 93 ∨ peek_char d 0 = 125)
                ∧ d.depth = 0)
             ∨ (peek_char d 0 = 47 ∧ v < 0))))

instance (d : tokendef) (v : Int) : Decidable (eat_hard_fail d v) := by
  unfold eat_hard_fail; infer_instance

/-! Return-code facts for the branch helpers of `eat_token`. -/

theorem eat_eof_ret (d : tokendef) : (eat_eof d).ret = if 0 < d.depth then 1 else 0 := rfl

theorem eat_tbrace_ret_neg (d : tokendef) :
    (eat_tbrace d).ret < 0 ↔ d.depth = STACK_SIZE := stack_inc_ret_neg d true

theorem eat_resume_ret (d : tokendef) : (eat_resume d).ret = 0 := rfl

theorem eat_comment_ret (d : tokendef) (nx : Nat) : (eat_comment d nx).ret = 0 := by
  unfold eat_comment
  repeat' split
  all_goals rfl

theorem eat_open_ret_neg (d : tokendef) (t : Int) :
    (eat_open d t).ret < 0 ↔ d.depth = STACK_SIZE := stack_inc_ret_neg d false

theorem eat_close_ret_neg (d : tokendef) :
    (eat_close d).ret < 0 ↔ d.depth = 0 := stack_dec_ret_neg d

theorem eat_close_brace_ret_neg (d : tokendef) :
    (eat_close_brace d).ret < 0 ↔ d.depth = 0 := by
  unfold eat_close_brace
  dsimp only
  split
  · exact stack_dec_ret_neg d
  · next h =>
    constructor
    · intro hcon; exact absurd hcon (by norm_num)
    · intro hdep; exact absurd ((stack_dec_ret_neg d).mpr hdep) h

theorem eat_op_ret (d : tokendef) (c k : Nat) : (eat_op d c k).ret = 0 := rfl

theorem eat_regexp_ret (d : tokendef) : (eat_regexp d).ret = 0 := rfl

theorem eat_slash_ret_neg (d : tokendef) (v : Int) :
    (eat_slash d v).ret < 0 ↔ v < 0 := by
  unfold eat_slash
  split
  · next h => simp [h]
  · next h =>
    split
    · simp [eat_regexp_ret, h]
    · simp [eat_op_ret, h]

theorem eat_string_ret (d : tokendef) (c : Nat) : (eat_string d c).ret = 0 := rfl

theorem eat_number_ret (d : tokendef) : (eat_number d).ret = 0 := rfl

theorem eat_dot_ret (d : tokendef) (nx : Nat) : (eat_dot d nx).ret = 0 := by
  unfold eat_dot; split <;> rfl

theorem eat_lit_ret (d : tokendef) (c : Nat) : (eat_lit d c).ret = 0 := by
  unfold eat_lit
  dsimp only
  split <;> rfl

/-- Return-code characterization of the dispatcher below the comment
block: negative exactly when an open bracket overflows the stack, a
close bracket underflows it, or the byte is a slash and the oracle
fails. -/
theorem eat_dispatch_ret_neg (d : tokendef) (v : Int) (c nx : Nat) :
    (eat_dispatch d v c nx).ret < 0 ↔
      (((c = 40 ∨ c = 91 ∨ c = 123) ∧ d.depth = STACK_SIZE)
        ∨ ((c = 41 ∨ c = 93 ∨ c = 125) ∧ d.depth = 0)
        ∨ (c = 47 ∧ v < 0)) := by
  unfold eat_dispatch
  by_cases h1 : c = 59
  · rw [if_pos h1]; simp [h1]
  rw [if_neg h1]
  by_cases h2 : c = 63
  · rw [if_pos h2]; simp [h2]
  rw [if_neg h2]
  by_cases h3 : c = 58
  · rw [if_pos h3]; simp [h3]
  rw [if_neg h3]
  by_cases h4 : c = 44
  · rw [if_pos h4]; simp [h4]
  rw [if_neg h4]
  by_cases h5 : c = 40
  · rw [if_pos h5, eat_open_ret_neg]; simp [h5]
  rw [if_neg h5]
  by_cases h6 : c = 91
  · rw [if_pos h6, eat_open_ret_neg]; simp [h6]
  rw [if_neg h6]
  by_cases h7 : c = 123
  · rw [if_pos h7, eat_open_ret_neg]; simp [h7]
  rw [if_neg h7]
  by_cases h8 : c = 41 ∨ c = 93
  · rw [if_pos h8, eat_close_ret_neg]
    rcases h8 with h8 | h8 <;> simp [h8]
  rw [if_neg h8]
  by_cases h9 : c = 125
  · rw [if_pos h9, eat_close_brace_ret_neg]; simp [h9]
  rw [if_neg h9]
  by_cases h10 : c = 47
  · rw [if_pos h10, eat_slash_ret_neg]; simp [h10]
  rw [if_neg h10]
  have hnone : ¬(((c = 40 ∨ c = 91 ∨ c = 123) ∧ d.depth = STACK_SIZE)
      ∨ ((c = 41 ∨ c = 93 ∨ c = 125) ∧ d.depth = 0)
      ∨ (c = 47 ∧ v < 0)) := by
    push_neg at h8
    rintro (⟨hh | hh | hh, _⟩ | ⟨hh | hh | hh, _⟩ | ⟨hh, _⟩) <;> simp_all
  by_cases h11 : isOpChar c
  · rw [if_pos h11]
    simp [eat_op_ret, hnone]
  rw [if_neg h11]
  by_cases h12 : c = 39 ∨ c = 34 ∨ c = 96
  · rw [if_pos h12]
    simp [eat_string_ret, hnone]
  rw [if_neg h12]
  by_cases h13 : isnum c = true ∨ (c = 46 ∧ isnum nx = true)
  · rw [if_pos h13]
    simp [eat_number_ret, hnone]
  rw [if_neg h13]
  by_cases h14 : c = 46
  · rw [if_pos h14]
    simp [eat_dot_ret, hnone]
  rw [if_neg h14]
  simp [eat_lit_ret, hnone]

/-- The return value of `eat_token` is negative exactly under
`eat_hard_fail`: every scanning path returns 0, the EOF path returns 0
or 1, and the only negative codes come from the two stack operations
and from a negative oracle answer. -/
theorem eat_ret_neg (d0 : tokendef) (v : Int) :
    (eat_token d0 v).ret < 0 ↔ eat_hard_fail d0 v := by
  unfold eat_token eat_hard_fail
  dsimp only
  simp only [peek_char_flag_update]
  by_cases hc : peek_char d0 0 = 0
  · rw [if_pos hc, eat_eof_ret]
    constructor
    · intro h; exfalso; revert h; dsimp only; split <;> norm_num
    · intro h; exact absurd hc h.1
  rw [if_neg hc]
  by_cases hf1 : d0.flag &&& FLAG_PENDING_T_BRACE ≠ 0
  · rw [if_pos hf1, eat_tbrace_ret_neg]
    dsimp only
    simp [hc, hf1]
  rw [if_neg hf1]
  by_cases hf2 : d0.flag &&& FLAG_RESUME_LIT ≠ 0
  · rw [if_pos hf2]
    simp only [eat_resume_ret]
    push_neg at hf1
    simp [hc, hf1, hf2]
  rw [if_neg hf2]
  by_cases hcm : peek_char d0 0 = 47 ∧ (peek_char d0 1 = 47 ∨ peek_char d0 1 = 42)
  · rw [if_pos hcm]
    simp only [eat_comment_ret]
    push_neg at hf1
    simp [hc, hf1, hcm]
  rw [if_neg hcm]
  rw [eat_dispatch_ret_neg]
  push_neg at hf1 hf2
  dsimp only
  simp only [hc, hf1, hf2, hcm]
  simp [hc, hcm]

/-! Evaluation lemmas: how `eat_token` reduces under the dispatch
conditions. -/

theorem eat_token_eval_eof (d : tokendef) (v : Int) (h : peek_char d 0 = 0) :
    eat_token d v = eat_eof { d with flag := 0 } := by
  unfold eat_token
  dsimp only
  simp only [peek_char_flag_update]
  rw [if_pos h]

theorem eat_token_eval_tbrace (d : tokendef) (v : Int)
    (h0 : peek_char d 0 ≠ 0) (h1 : d.flag &&& FLAG_PENDING_T_BRACE ≠ 0) :
    eat_token d v = eat_tbrace { d with flag := 0 } := by
  unfold eat_token
  dsimp only
  simp only [peek_char_flag_update]
  rw [if_neg h0, if_pos h1]

theorem eat_token_eval_resume (d : tokendef) (v : Int)
    (h0 : peek_char d 0 ≠ 0) (h1 : d.flag &&& FLAG_PENDING_T_BRACE = 0)
    (h2 : d.flag &&& FLAG_RESUME_LIT ≠ 0) :
    eat_token d v = eat_resume { d with flag := 0 } := by
  unfold eat_token
  dsimp only
  simp only [peek_char_flag_update]
  rw [if_neg h0, if_neg (by simp [h1]), if_pos h2]

theorem eat_token_eval_comment (d : tokendef) (v : Int)
    (h0 : peek_char d 0 ≠ 0) (h1 : d.flag &&& FLAG_PENDING_T_BRACE = 0)
    (h2 : d.flag &&& FLAG_RESUME_LIT = 0)
    (h3 : peek_char d 0 = 47 ∧ (peek_char d 1 = 47 ∨ peek_char d 1 = 42)) :
    eat_token d v = eat_comment { d with flag := 0 } (peek_char d 1) := by
  unfold eat_token
  dsimp only
  simp only [peek_char_flag_update]
  rw [if_neg h0, if_neg (by simp [h1]), if_neg (by simp [h2]), if_pos h3]

theorem eat_token_eval_dispatch (d : tokendef) (v : Int)
    (h0 : peek_char d 0 ≠ 0) (h1 : d.flag &&& FLAG_PENDING_T_BRACE = 0)
    (h2 : d.flag &&& FLAG_RESUME_LIT = 0)
    (h3 : ¬(peek_char d 0 = 47 ∧ (peek_char d 1 = 47 ∨ peek_char d 1 = 42))) :
    eat_token d v
      = eat_dispatch { d with flag := 0 } v (peek_char d 0) (peek_char d 1) := by
  unfold eat_token
  dsimp only
  simp only [peek_char_flag_update]
  rw [if_neg h0, if_neg (by simp [h1]), if_neg (by simp [h2]), if_neg h3]

/-! Claim C1. -/

/-- C1 (amended).  The claim as stated is false: `prsr_next_token`
discards the positive soft code that `eat_token` produces for EOF at
nonzero depth (and for popping a template-marked entry under a round or
square close), so the call returns 0 there, not a positive value; the
positive values it can return instead encode the offset of a lexing
failure.  What does hold, proved here: the call returns a negative
value exactly on hard failure (stack overflow on push, underflow on
close, negative oracle answer on a non-comment slash), and at EOF the
call always returns 0 — the EOF token is emitted but the unbalanced
condition is not signalled. -/
theorem c1_return_codes (d : tokendef) (v : Int) :
    ((prsr_next_token d v).ret < 0 ↔ eat_hard_fail (wsState d) v)
    ∧ (peek_char (wsState d) 0 = 0 → (prsr_next_token d v).ret = 0) := by
  unfold prsr_next_token
  dsimp only
  constructor
  · split
    · next h => exact iff_of_true h ((eat_ret_neg _ v).mp h)
    · next h =>
      split
      · exact iff_of_false (by dsimp only; omega) (fun hh => h ((eat_ret_neg _ v).mpr hh))
      · exact iff_of_false (by norm_num) (fun hh => h ((eat_ret_neg _ v).mpr hh))
  · intro h0
    rw [eat_token_eval_eof _ v h0]
    have h1 : ¬((eat_eof { wsState d with flag := 0 }).ret < 0) := by
      rw [eat_eof_ret]; split <;> norm_num
    have h2 : ¬((eat_eof { wsState d with flag := 0 }).eat.type < 0) := by
      norm_num [eat_eof, TOKEN_EOF]
    rw [if_neg h1, if_neg h2]

/-- C1 witness: the state after scanning the single byte `(` sits at
EOF with depth 1; the theorem applies and the next-token call returns
0. -/
theorem c1_return_codes_witness :
    (prsr_next_token ((runN (fun _ => 1) 1 (prsr_init_token [40]) 0).2.1) 1).ret = 0 :=
  (c1_return_codes ((runN (fun _ => 1) 1 (prsr_init_token [40]) 0).2.1) 1).2 (by decide)

/-- C1 counterexample: on the buffer `(`, the second call reaches EOF
with bracket depth 1 and still returns 0 (not a positive value as the
claim requires); the EOF token is emitted. -/
theorem c1_counterexample :
    runRets (runN (fun _ => 1) 2 (prsr_init_token [40]) 0).1 = [0, 0]
      ∧ (runN (fun _ => 1) 2 (prsr_init_token [40]) 0).2.1.depth = 1
      ∧ runToks (runN (fun _ => 1) 2 (prsr_init_token [40]) 0).1
          = [some (0, 1, 1, TOKEN_PAREN), some (1, 0, 1, TOKEN_EOF)] := by
  refine ⟨by decide, by decide, by decide⟩

/-! Claim C2. -/

/-- The bytes of the template-literal example: backtick, h, i, space,
dollar, open brace, x, close brace, space, b, y, e, backtick. -/
def bufC2 : List Nat := [96, 104, 105, 32, 36, 123, 120, 125, 32, 98, 121, 101, 96]

/-- C2 counterexample: in the run over the template example, the fifth
token is a STRING of length 4 starting at offset 9, whose first byte is
98 (`b`) — not a STRING of length 5 whose first byte is the closing
brace at offset 7, as the claim states.  (The CLOSE token at offset 7
already consumed the brace, and the following space is skipped as
inter-token whitespace.) -/
theorem c2_counterexample :
    ((runToks (runN (fun _ => 1) 6 (prsr_init_token bufC2) 0).1).getD 4 none
        = some (9, 4, 1, TOKEN_STRING))
      ∧ byteAt bufC2 9 = 98 ∧ byteAt bufC2 9 ≠ 125 := by
  refine ⟨by decide, by decide, by decide⟩

/-- C2 (amended).  After the CLOSE pops the template-marked entry, the
next call resumes the template literal, but the resumed STRING token
begins at the first non-whitespace byte after the `}` (the brace itself
was consumed by CLOSE and the following whitespace is skipped): the
stream is STRING(4) T_BRACE(2) LIT(1) CLOSE(1) STRING(4) EOF(0), the
final STRING covering the four bytes from `b` to the closing backtick,
with `lit_next_colon` false on `x`, every call returning 0, and depth
back at 0. -/
theorem c2_template_resume_stream :
    runToks (runN (fun _ => 1) 6 (prsr_init_token bufC2) 0).1
        = [some (0, 4, 1, TOKEN_STRING), some (4, 2, 1, TOKEN_T_BRACE),
           some (6, 1, 1, TOKEN_LIT), some (7, 1, 1, TOKEN_CLOSE),
           some (9, 4, 1, TOKEN_STRING), some (13, 0, 1, TOKEN_EOF)]
      ∧ runRets (runN (fun _ => 1) 6 (prsr_init_token bufC2) 0).1 = [0, 0, 0, 0, 0, 0]
      ∧ ((runN (fun _ => 1) 6 (prsr_init_token bufC2) 0).1.getD 2 (0, none)).2.map
          token.lit_next_colon = some false
      ∧ (runN (fun _ => 1) 6 (prsr_init_token bufC2) 0).2.1.depth = 0 := by
  refine ⟨by decide, by decide, by decide, by decide⟩

/-! Claim C3. -/

/-- C3 (code bug).  On the one-byte buffer holding a single backslash,
both calls succeed (return 0) and emit LIT then EOF, yet the LIT token
has length 2: the literal scanner consumed the nonexistent escaped
byte past the end of the buffer.  The token lengths sum to 2 with no
whitespace skipped, but the buffer length is 1, so the sum property and
the concatenation property of the claim fail.  (In C this also leaves
`curr == 2 > len` and the next whitespace scan reads past the
terminating NUL.) -/
theorem c3_length_accounting_bug :
    runRets (runN (fun _ => 1) 2 (prsr_init_token [92]) 0).1 = [0, 0]
      ∧ runToks (runN (fun _ => 1) 2 (prsr_init_token [92]) 0).1
          = [some (0, 2, 1, TOKEN_LIT), some (2, 0, 1, TOKEN_EOF)]
      ∧ ([92] : List Nat).length = 1 := by
  refine ⟨by decide, by decide, by decide⟩

/-! Claim C6. -/

/-- C6 (code bug).  On the buffer backslash-u-brace-1 (an unterminated
`\u{...}` escape at the end of the buffer, the very case the claim
names), the first call succeeds and emits a LIT with `p = 0` and
`len = 5` on a 4-byte buffer — the token range extends past the buffer
— and leaves the cursor at 5 > len = 4, violating `curr ≤ len` at the
API boundary.  The `++len` after the brace-consuming loop eats a
closing brace that is not there. -/
theorem c6_bounds_bug :
    runToks (runN (fun _ => 1) 1 (prsr_init_token [92, 117, 123, 49]) 0).1
        = [some (0, 5, 1, TOKEN_LIT)]
      ∧ (runN (fun _ => 1) 1 (prsr_init_token [92, 117, 123, 49]) 0).2.1.curr = 5
      ∧ (runN (fun _ => 1) 1 (prsr_init_token [92, 117, 123, 49]) 0).2.1.len = 4 := by
  refine ⟨by decide, by decide, by decide⟩

/-! Claim C7, counterexample part. -/

/-- C7 counterexample: on the unterminated block comment `/*` followed
by a newline, the comment token swallows the newline without counting
it, so the EOF token is reported at line 1 although one newline lies
strictly before its first byte (1 + 1 = 2 ≠ 1). -/
theorem c7_counterexample :
    runToks (runN (fun _ => 1) 2 (prsr_init_token [47, 42, 10]) 0).1
        = [some (0, 3, 1, TOKEN_COMMENT), some (3, 0, 1, TOKEN_EOF)]
      ∧ countNl [47, 42, 10] 0 3 = 1 := by
  refine ⟨by decide, by decide⟩

/-! Claim C8. -/

/-- The bytes of the comment example: `/* line1`, newline, `line2 */x`. -/
def bufC8 : List Nat :=
  [47, 42, 32, 108, 105, 110, 101, 49, 10, 108, 105, 110, 101, 50, 32, 42, 47, 120]

/-- C8 counterexample: the comment token on the example buffer has
length 17, not 15 — the claim forgot the two bytes of the closing
`*/` (the 18-byte buffer leaves no room for COMMENT(15) LIT(1) with no
skipped whitespace). -/
theorem c8_counterexample :
    (runToks (runN (fun _ => 1) 3 (prsr_init_token bufC8) 0).1).getD 0 none
        = some (0, 17, 1, TOKEN_COMMENT)
      ∧ bufC8.length = 18 := by
  refine ⟨by decide, by decide⟩

/-- C8 (amended).  The block comment consumes through the closing `*/`
and counts its newline, giving COMMENT(17) LIT(1) EOF(0) with the LIT
and the EOF both reported at line 2. -/
theorem c8_comment_scenario :
    runToks (runN (fun _ => 1) 3 (prsr_init_token bufC8) 0).1
        = [some (0, 17, 1, TOKEN_COMMENT), some (17, 1, 2, TOKEN_LIT),
           some (18, 0, 2, TOKEN_EOF)]
      ∧ runRets (runN (fun _ => 1) 3 (prsr_init_token bufC8) 0).1 = [0, 0, 0] := by
  refine ⟨by decide, by decide⟩

/-! How `prsr_next_token` packages the result of `eat_token`. -/

theorem prsr_consults (d : tokendef) (v : Int) :
    (prsr_next_token d v).consults = (eat_token (wsState d) v).consults := by
  unfold prsr_next_token
  dsimp only
  split
  · rfl
  · split <;> rfl

theorem prsr_hard (d : tokendef) (v : Int)
    (h : (eat_token (wsState d) v).ret < 0) :
    (prsr_next_token d v).ret = (eat_token (wsState d) v).ret
      ∧ (prsr_next_token d v).tok = none := by
  unfold prsr_next_token
  dsimp only
  rw [if_pos h]
  exact ⟨rfl, rfl⟩

theorem prsr_sentinel (d : tokendef) (v : Int)
    (h1 : ¬((eat_token (wsState d) v).ret < 0))
    (h2 : (eat_token (wsState d) v).eat.type < 0) :
    (prsr_next_token d v).ret = ((eat_token (wsState d) v).d.curr : Int)
      ∧ (prsr_next_token d v).tok = none := by
  unfold prsr_next_token
  dsimp only
  rw [if_neg h1, if_pos h2]
  exact ⟨rfl, rfl⟩

theorem prsr_success (d : tokendef) (v : Int)
    (h1 : ¬((eat_token (wsState d) v).ret < 0))
    (h2 : ¬((eat_token (wsState d) v).eat.type < 0)) :
    (prsr_next_token d v).ret = 0
      ∧ (prsr_next_token d v).tok.map token.type
          = some (eat_token (wsState d) v).eat.type
      ∧ (prsr_next_token d v).tok.map token.p
          = some (eat_token (wsState d) v).d.curr
      ∧ (prsr_next_token d v).tok.map token.len
          = some (eat_token (wsState d) v).eat.len
      ∧ (prsr_next_token d v).tok.map token.line_no = some (wsState d).line_no
      ∧ (prsr_next_token d v).d.curr
          = (eat_token (wsState d) v).d.curr + (eat_token (wsState d) v).eat.len := by
  unfold prsr_next_token
  dsimp only
  rw [if_neg h1, if_neg h2]
  exact ⟨rfl, rfl, rfl, rfl, rfl, rfl⟩

/-! Claim C4. -/

/-- C4 counterexample: on the buffer backtick-dollar-brace-parenthesis,
the third call stands on `)` and pops the stack entry pushed for `${`
(template bit 1), yet every call returns 0 and the third emits an
ordinary CLOSE token — no negative value is ever returned. -/
theorem c4_counterexample :
    runRets (runN (fun _ => 1) 3 (prsr_init_token [96, 36, 123, 41]) 0).1 = [0, 0, 0]
      ∧ runToks (runN (fun _ => 1) 3 (prsr_init_token [96, 36, 123, 41]) 0).1
          = [some (0, 1, 1, TOKEN_STRING), some (1, 2, 1, TOKEN_T_BRACE),
             some (3, 1, 1, TOKEN_CLOSE)] := by
  refine ⟨by decide, by decide⟩

/-- C4 (amended).  When the dispatcher stands on `)` or `]` and the
popped stack entry carries template bit 1, `eat_token` returns the
positive value 1 (`stack_dec`'s bit report, the same value as the soft
EOF signal) — but `prsr_next_token` discards every nonnegative code, so
the call returns 0 and emits a CLOSE token: no structural error is
reported to the caller. -/
theorem c4_close_template_bit (d : tokendef) (v : Int)
    (hf : d.flag = 0)
    (hc : peek_char (wsState d) 0 = 41 ∨ peek_char (wsState d) 0 = 93)
    (hd : d.depth ≠ 0)
    (hs : d.stack.getD (d.depth - 1) false = true) :
    (eat_token (wsState d) v).ret = 1
      ∧ (prsr_next_token d v).ret = 0
      ∧ (prsr_next_token d v).tok.map token.type = some TOKEN_CLOSE := by
  have h0 : peek_char (wsState d) 0 ≠ 0 := by rcases hc with h | h <;> simp [h]
  have he := eat_token_eval_dispatch (wsState d) v h0
    (by simp [hf]) (by simp [hf])
    (by rcases hc with h | h <;> simp [h])
  have hdisp : eat_dispatch { wsState d with flag := 0 } v (peek_char (wsState d) 0)
      (peek_char (wsState d) 1) = eat_close { wsState d with flag := 0 } := by
    unfold eat_dispatch
    rcases hc with h | h <;> simp [h]
  have hclose : (eat_close { wsState d with flag := 0 }).ret = 1
      ∧ (eat_close { wsState d with flag := 0 }).eat = ⟨1, TOKEN_CLOSE⟩ := by
    unfold eat_close stack_dec
    dsimp only
    rw [if_neg (by simpa using hd)]
    constructor
    · simpa using hs
    · rfl
  have heat1 : (eat_token (wsState d) v).ret = 1 := by rw [he, hdisp, hclose.1]
  have heat2 : (eat_token (wsState d) v).eat = ⟨1, TOKEN_CLOSE⟩ := by
    rw [he, hdisp, hclose.2]
  have hp := prsr_success d v (by rw [heat1]; norm_num)
    (by rw [heat2]; norm_num [TOKEN_CLOSE])
  refine ⟨heat1, hp.1, ?_⟩
  rw [hp.2.1, heat2]

/-- C4 witness: a state standing on `)` with depth 1 and the template
bit set; the theorem applies, `eat_token` reports 1 and the call
returns 0 with a CLOSE token. -/
theorem c4_close_template_bit_witness :
    (eat_token (wsState ⟨[41], 1, 0, 1, 0, 1,
        (List.replicate STACK_SIZE false).set 0 true⟩) 1).ret = 1
      ∧ (prsr_next_token (⟨[41], 1, 0, 1, 0, 1,
          (List.replicate STACK_SIZE false).set 0 true⟩ : tokendef) 1).ret = 0 := by
  have h := c4_close_template_bit ⟨[41], 1, 0, 1, 0, 1,
    (List.replicate STACK_SIZE false).set 0 true⟩ 1
    (by decide) (by decide) (by decide) (by decide)
  exact ⟨h.1, h.2.1⟩

/-! Claim C5. -/

/-- Scanning a slash as an operator always yields kind OP: the arrow
special case needs `start = 61`, and the doubled-pair case needs the
next byte to repeat the slash, which the comment check already ruled
out. -/
theorem op_scan_slash_type (buf : List Nat) (blen curr : Nat) :
    (op_scan buf blen curr 47).2 = TOKEN_OP := by
  unfold op_scan
  dsimp only
  rw [if_neg (by norm_num), if_neg (by norm_num)]
  split_ifs <;> rfl

/-- Every branch of the slash dispatch consults the oracle exactly
once. -/
theorem eat_slash_consults (d : tokendef) (v : Int) :
    (eat_slash d v).consults = 1 := by
  unfold eat_slash
  split_ifs <;> rfl

/-- C5 (confirmed).  When the dispatcher stands on a slash that does
not begin a comment (no forced flag path is active), the oracle is
consulted exactly once during the call; a positive answer scans the
slash as an operator (kind OP), zero starts a REGEXP token, and a
negative answer is returned verbatim as the result of the call, with
no token written. -/
theorem c5_oracle_contract (d : tokendef) (v : Int)
    (hf : d.flag = 0)
    (hc : peek_char (wsState d) 0 = 47)
    (hn1 : peek_char (wsState d) 1 ≠ 47)
    (hn2 : peek_char (wsState d) 1 ≠ 42) :
    (prsr_next_token d v).consults = 1
      ∧ (0 < v → (prsr_next_token d v).ret = 0
          ∧ (prsr_next_token d v).tok.map token.type = some TOKEN_OP)
      ∧ (v = 0 → (prsr_next_token d v).ret = 0
          ∧ (prsr_next_token d v).tok.map token.type = some TOKEN_REGEXP)
      ∧ (v < 0 → (prsr_next_token d v).ret = v ∧ (prsr_next_token d v).tok = none) := by
  have h0 : peek_char (wsState d) 0 ≠ 0 := by simp [hc]
  have he := eat_token_eval_dispatch (wsState d) v h0
    (by simp [hf]) (by simp [hf]) (by simp [hn1, hn2])
  have hdisp : eat_dispatch { wsState d with flag := 0 } v (peek_char (wsState d) 0)
      (peek_char (wsState d) 1) = eat_slash { wsState d with flag := 0 } v := by
    unfold eat_dispatch
    simp [hc]
  have hes : eat_token (wsState d) v = eat_slash { wsState d with flag := 0 } v := by
    rw [he, hdisp]
  refine ⟨by rw [prsr_consults, hes, eat_slash_consults], ?_, ?_, ?_⟩
  · intro hv
    have hop : eat_slash { wsState d with flag := 0 } v
        = eat_op { wsState d with flag := 0 } 47 1 := by
      unfold eat_slash
      rw [if_neg (by omega), if_neg (by omega)]
    have htype : (eat_token (wsState d) v).eat.type = TOKEN_OP := by
      rw [hes, hop]
      exact op_scan_slash_type _ _ _
    have hret : ¬((eat_token (wsState d) v).ret < 0) := by
      rw [hes, hop]; norm_num [eat_op]
    have hp := prsr_success d v hret (by rw [htype]; norm_num [TOKEN_OP])
    exact ⟨hp.1, by rw [hp.2.1, htype]⟩
  · intro hv
    have hreg : eat_slash { wsState d with flag := 0 } v
        = eat_regexp { wsState d with flag := 0 } := by
      unfold eat_slash
      rw [if_neg (by omega), if_pos hv]
    have htype : (eat_token (wsState d) v).eat.type = TOKEN_REGEXP := by
      rw [hes, hreg]; rfl
    have hret : ¬((eat_token (wsState d) v).ret < 0) := by
      rw [hes, hreg]; norm_num [eat_regexp_ret]
    have hp := prsr_success d v hret (by rw [htype]; norm_num [TOKEN_REGEXP])
    exact ⟨hp.1, by rw [hp.2.1, htype]⟩
  · intro hv
    have hneg : (eat_token (wsState d) v).ret = v := by
      rw [hes]; unfold eat_slash; rw [if_pos hv]
    have hh := prsr_hard d v (by rw [hneg]; exact hv)
    exact ⟨by rw [hh.1, hneg], hh.2⟩

/-- C5 witness: on the one-byte buffer `/`, a positive oracle answer
gives one consultation and an OP token, a zero answer a REGEXP token,
and the answer -2 is returned verbatim. -/
theorem c5_oracle_contract_witness :
    (prsr_next_token (prsr_init_token [47]) 1).consults = 1
      ∧ (prsr_next_token (prsr_init_token [47]) 1).tok.map token.type = some TOKEN_OP
      ∧ (prsr_next_token (prsr_init_token [47]) 0).tok.map token.type = some TOKEN_REGEXP
      ∧ (prsr_next_token (prsr_init_token [47]) (-2)).ret = -2 := by
  have h1 := c5_oracle_contract (prsr_init_token [47]) 1
    (by decide) (by decide) (by decide) (by decide)
  have h0 := c5_oracle_contract (prsr_init_token [47]) 0
    (by decide) (by decide) (by decide) (by decide)
  have hm := c5_oracle_contract (prsr_init_token [47]) (-2)
    (by decide) (by decide) (by decide) (by decide)
  exact ⟨h1.1, (h1.2.1 (by norm_num)).2, (h0.2.2.1 rfl).2, (hm.2.2.2 (by norm_num)).1⟩

/-! Claim C9. -/

/-- The literal scanner consumes nothing when the byte under the cursor
is not a backslash and not a valid identifier head. -/
theorem lit_run_zero (fuel : Nat) (buf : List Nat) (blen curr c : Nat)
    (h92 : c ≠ 92) (ha : isalpha c = false) (h36 : c ≠ 36) (h95 : c ≠ 95)
    (h128 : c < 128) :
    lit_run fuel buf blen curr 0 c = 0 := by
  cases fuel with
  | zero => rfl
  | succ f =>
    unfold lit_run
    rw [if_neg h92]
    dsimp only
    rw [if_neg (by simp [ha, h36, h95, Nat.not_le.mpr h128])]

/-- No lexical rule applies to a byte `c` (with successor byte `nx`):
it is not EOF, none of the dispatch cases match, and it cannot head an
identifier. -/
def noLexRule (c nx : Nat) : Prop :=
  c ≠ 0 ∧ c ≠ 59 ∧ c ≠ 63 ∧ c ≠ 58 ∧ c ≠ 44 ∧ c ≠ 40 ∧ c ≠ 91 ∧ c ≠ 123
    ∧ c ≠ 41 ∧ c ≠ 93 ∧ c ≠ 125 ∧ c ≠ 47 ∧ ¬isOpChar c
    ∧ c ≠ 39 ∧ c ≠ 34 ∧ c ≠ 96 ∧ isnum c = false ∧ c ≠ 46
    ∧ c ≠ 92 ∧ isalpha c = false ∧ c ≠ 36 ∧ c ≠ 95 ∧ c < 128

instance (c nx : Nat) : Decidable (noLexRule c nx) := by
  unfold noLexRule; infer_instance

/-- C9 (amended).  When no lexical rule matches the byte at the
cursor, the internal scanner emits the length-0 sentinel with kind -1
and the call returns the failing offset (the cursor) as a nonnegative
value, without writing the output token.  For failing offsets of 1 or
more this value is positive and so distinguishable from the 0 of
success; at offset 0, however, the call returns 0, the success value —
the claim's "distinguishable from the 0 success return for every
failing offset including offset 0" fails there.  (The positive
unbalanced-at-EOF signal never surfaces from `prsr_next_token`, so no
separate collision with it exists.) -/
theorem c9_sentinel_offset (d : tokendef) (v : Int)
    (hf : d.flag = 0)
    (hn : noLexRule (peek_char (wsState d) 0) (peek_char (wsState d) 1)) :
    (eat_token (wsState d) v).eat = ⟨0, -1⟩
      ∧ (prsr_next_token d v).ret = ((wsState d).curr : Int)
      ∧ (prsr_next_token d v).tok = none := by
  obtain ⟨h0, h59, h63, h58, h44, h40, h91, h123, h41, h93, h125, h47, hop,
    h39, h34, h96, hnum, h46, h92, halpha, h36, h95, h128⟩ := hn
  have he := eat_token_eval_dispatch (wsState d) v h0
    (by simp [hf]) (by simp [hf]) (by simp [h47])
  have hdisp : eat_dispatch { wsState d with flag := 0 } v (peek_char (wsState d) 0)
      (peek_char (wsState d) 1) = eat_lit { wsState d with flag := 0 }
        (peek_char (wsState d) 0) := by
    unfold eat_dispatch
    simp [h59, h63, h58, h44, h40, h91, h123, h41, h93, h125, h47, hop,
      h39, h34, h96, hnum, h46]
  have hlit : eat_lit { wsState d with flag := 0 } (peek_char (wsState d) 0)
      = ⟨0, ⟨0, -1⟩, { wsState d with flag := 0 }, 0⟩ := by
    unfold eat_lit
    dsimp only
    rw [lit_run_zero _ _ _ _ _ h92 halpha h36 h95 h128]
    simp
  have heat : eat_token (wsState d) v = ⟨0, ⟨0, -1⟩, { wsState d with flag := 0 }, 0⟩ := by
    rw [he, hdisp, hlit]
  have hs := prsr_sentinel d v (by rw [heat]; norm_num) (by rw [heat]; norm_num)
  refine ⟨by rw [heat], ?_, hs.2⟩
  rw [hs.1, heat]

/-- C9 witness: after a LIT over `a`, the cursor stands at offset 1 on
`#`; no rule matches, and the call returns 1 — the failing offset,
positive and distinct from success — with no token written. -/
theorem c9_sentinel_offset_witness :
    (prsr_next_token ((runN (fun _ => 1) 1 (prsr_init_token [97, 35]) 0).2.1) 1).ret = 1
      ∧ (prsr_next_token ((runN (fun _ => 1) 1 (prsr_init_token [97, 35]) 0).2.1) 1).tok
          = none := by
  have h := c9_sentinel_offset ((runN (fun _ => 1) 1 (prsr_init_token [97, 35]) 0).2.1) 1
    (by decide) (by decide)
  exact ⟨h.2.1.trans (by decide), h.2.2⟩

/-- C9 counterexample: on the buffer `#`, the lexing failure is at
offset 0, and the call returns 0 — the very value that signals success
— so the return is not distinguishable from the 0 success return at
every failing offset. -/
theorem c9_counterexample :
    (runN (fun _ => 1) 1 (prsr_init_token [35]) 0).1 = [(0, none)] := by
  decide

/-! Facts about the whitespace skipper. -/

theorem byteAt_eq_zero (buf : List Nat) (i : Nat) (h : buf.length ≤ i) :
    byteAt buf i = 0 := by
  simp [byteAt, List.getD_eq_getElem?_getD, List.getElem?_eq_none h]

theorem byteAt_lt (buf : List Nat) (i : Nat) (h : byteAt buf i ≠ 0) :
    i < buf.length := by
  by_contra hh
  exact h (byteAt_eq_zero buf i (by omega))

theorem byteAt_eq_getElem (buf : List Nat) (i : Nat) (h : i < buf.length) :
    byteAt buf i = buf[i] := by
  simp [byteAt, List.getD_eq_getElem?_getD, List.getElem?_eq_getElem h]

theorem countNl_self (buf : List Nat) (a : Nat) : countNl buf a a = 0 := by
  simp [countNl]

theorem countNl_succ (buf : List Nat) (a b : Nat) (ha : a < buf.length)
    (hab : a < b) :
    countNl buf a b = (if byteAt buf a = 10 then 1 else 0) + countNl buf (a + 1) b := by
  unfold countNl
  rw [List.drop_eq_getElem_cons ha]
  have hb : b - a = (b - (a + 1)) + 1 := by omega
  rw [hb, List.take_succ_cons, List.countP_cons, byteAt_eq_getElem buf a ha]
  simp [Nat.add_comm, beq_iff_eq]

/-- Full specification of the whitespace loop: given enough fuel it
stops at the first non-whitespace byte, every skipped byte is
whitespace, and the line counter advances by exactly the number of
newlines skipped. -/
theorem skipWs_spec (buf : List Nat) :
    ∀ (fuel curr line : Nat), buf.length ≤ curr + fuel →
      curr ≤ (skipWs fuel buf curr line).1
      ∧ isspace (byteAt buf (skipWs fuel buf curr line).1) = false
      ∧ (∀ i, curr ≤ i → i < (skipWs fuel buf curr line).1 →
          isspace (byteAt buf i) = true)
      ∧ (skipWs fuel buf curr line).2
          = line + countNl buf curr (skipWs fuel buf curr line).1 := by
  intro fuel
  induction fuel with
  | zero =>
    intro curr line h
    have hz : byteAt buf curr = 0 := byteAt_eq_zero buf curr (by omega)
    refine ⟨Nat.le_refl _, by simp [skipWs, hz, isspace], ?_, by simp [skipWs, countNl_self]⟩
    intro i h1 h2
    simp only [skipWs] at h2
    omega
  | succ f ih =>
    intro curr line h
    unfold skipWs
    dsimp only
    by_cases h10 : byteAt buf curr = 10
    · rw [if_pos h10]
      have hcl : curr < buf.length := byteAt_lt buf curr (by rw [h10]; norm_num)
      obtain ⟨i1, i2, i3, i4⟩ := ih (curr + 1) (line + 1) (by omega)
      refine ⟨by omega, i2, ?_, ?_⟩
      · intro i ha hb
        rcases Nat.eq_or_lt_of_le ha with rfl | hlt
        · rw [h10]; decide
        · exact i3 i (by omega) hb
      · rw [i4, countNl_succ buf curr _ hcl (by omega), if_pos h10]
        omega
    · rw [if_neg h10]
      by_cases hsp : isspace (byteAt buf curr) = true
      · rw [if_pos hsp]
        have hcl : curr < buf.length := byteAt_lt buf curr (by
          intro hz; rw [hz] at hsp; simp [isspace] at hsp)
        obtain ⟨i1, i2, i3, i4⟩ := ih (curr + 1) line (by omega)
        refine ⟨by omega, i2, ?_, ?_⟩
        · intro i ha hb
          rcases Nat.eq_or_lt_of_le ha with rfl | hlt
          · exact hsp
          · exact i3 i (by omega) hb
        · rw [i4, countNl_succ buf curr _ hcl (by omega), if_neg h10]
          omega
      · rw [if_neg hsp]
        refine ⟨Nat.le_refl _, by simpa using hsp, ?_, by simp [countNl_self]⟩
        intro i h1 h2
        omega

/-! Claim C10. -/

/-- C10 (confirmed).  When the resume-template-literal flag is armed,
the call still runs the whitespace skipper before resuming the string
scanner: the emitted STRING token starts at the first non-whitespace
byte at or after the cursor, every byte between the old cursor and the
token start is whitespace (excluded from the token), and the token's
line number is the old line number plus the newlines skipped. -/
theorem c10_resume_skips_whitespace (d : tokendef) (v : Int)
    (hf : d.flag = FLAG_RESUME_LIT)
    (h0 : peek_char (wsState d) 0 ≠ 0) :
    (prsr_next_token d v).ret = 0
      ∧ (prsr_next_token d v).tok.map token.type = some TOKEN_STRING
      ∧ (prsr_next_token d v).tok.map token.p = some (wsState d).curr
      ∧ (prsr_next_token d v).tok.map token.line_no = some (wsState d).line_no
      ∧ d.curr ≤ (wsState d).curr
      ∧ (∀ i, d.curr ≤ i → i < (wsState d).curr → isspace (byteAt d.buf i) = true)
      ∧ (wsState d).line_no = d.line_no + countNl d.buf d.curr (wsState d).curr := by
  have he := eat_token_eval_resume (wsState d) v h0
    (by simp [hf, FLAG_RESUME_LIT, FLAG_PENDING_T_BRACE])
    (by simp [hf, FLAG_RESUME_LIT])
  have htype : (eat_token (wsState d) v).eat.type = TOKEN_STRING := by
    rw [he]; rfl
  have hret : ¬((eat_token (wsState d) v).ret < 0) := by
    rw [he]; norm_num [eat_resume_ret]
  have hcurr : (eat_token (wsState d) v).d.curr = (wsState d).curr := by
    rw [he]; rfl
  have hp := prsr_success d v hret (by rw [htype]; norm_num [TOKEN_STRING])
  obtain ⟨w1, w2, w3, w4⟩ := skipWs_spec d.buf (d.buf.length + 1) d.curr d.line_no
    (by omega)
  exact ⟨hp.1, by rw [hp.2.1, htype], by rw [hp.2.2.1, hcurr],
    hp.2.2.2.2.1, by rw [wsState_curr]; exact w1,
    by rw [wsState_curr]; exact w3, by rw [wsState_curr, wsState_line_no]; exact w4⟩

/-- C10 witness: a resume state whose cursor stands on a space and a
newline before the template continuation; the STRING starts past them
at offset 2 and is reported on line 2. -/
theorem c10_resume_skips_whitespace_witness :
    (prsr_next_token (⟨[32, 10, 98, 96], 4, 0, 1, 2, 0,
        List.replicate STACK_SIZE false⟩ : tokendef) 1).tok.map token.p = some 2
      ∧ (prsr_next_token (⟨[32, 10, 98, 96], 4, 0, 1, 2, 0,
          List.replicate STACK_SIZE false⟩ : tokendef) 1).tok.map token.line_no
          = some 2
      ∧ (prsr_next_token (⟨[32, 10, 98, 96], 4, 0, 1, 2, 0,
          List.replicate STACK_SIZE false⟩ : tokendef) 1).tok.map token.type
          = some TOKEN_STRING := by
  have h := c10_resume_skips_whitespace (⟨[32, 10, 98, 96], 4, 0, 1, 2, 0,
    List.replicate STACK_SIZE false⟩ : tokendef) 1 (by decide) (by decide)
  exact ⟨h.2.2.1.trans (by decide), h.2.2.2.1.trans (by decide), h.2.1⟩

/-! Claim C7: line numbers never decrease. -/

/-- Case analysis principle for the dispatcher: any property holding
for every possible branch result holds for the dispatch. -/
theorem eat_dispatch_elim (d : tokendef) (v : Int) (c nx : Nat)
    (motive : EatRes → Prop)
    (hpunct : ∀ t : Int, motive ⟨0, ⟨1, t⟩, d, 0⟩)
    (hopen : ∀ t : Int, motive (eat_open d t))
    (hclose : motive (eat_close d))
    (hbrace : motive (eat_close_brace d))
    (hslash : motive (eat_slash d v))
    (hop : motive (eat_op d c 0))
    (hstring : motive (eat_string d c))
    (hnumber : motive (eat_number d))
    (hdot : motive (eat_dot d nx))
    (hlit : motive (eat_lit d c)) :
    motive (eat_dispatch d v c nx) := by
  unfold eat_dispatch
  by_cases h1 : c = 59
  · rw [if_pos h1]; exact hpunct TOKEN_SEMICOLON
  rw [if_neg h1]
  by_cases h2 : c = 63
  · rw [if_pos h2]; exact hpunct TOKEN_TERNARY
  rw [if_neg h2]
  by_cases h3 : c = 58
  · rw [if_pos h3]; exact hpunct TOKEN_COLON
  rw [if_neg h3]
  by_cases h4 : c = 44
  · rw [if_pos h4]; exact hpunct TOKEN_COMMA
  rw [if_neg h4]
  by_cases h5 : c = 40
  · rw [if_pos h5]; exact hopen TOKEN_PAREN
  rw [if_neg h5]
  by_cases h6 : c = 91
  · rw [if_pos h6]; exact hopen TOKEN_ARRAY
  rw [if_neg h6]
  by_cases h7 : c = 123
  · rw [if_pos h7]; exact hopen TOKEN_BRACE
  rw [if_neg h7]
  by_cases h8 : c = 41 ∨ c = 93
  · rw [if_pos h8]; exact hclose
  rw [if_neg h8]
  by_cases h9 : c = 125
  · rw [if_pos h9]; exact hbrace
  rw [if_neg h9]
  by_cases h10 : c = 47
  · rw [if_pos h10]; exact hslash
  rw [if_neg h10]
  by_cases h11 : isOpChar c
  · rw [if_pos h11]; exact hop
  rw [if_neg h11]
  by_cases h12 : c = 39 ∨ c = 34 ∨ c = 96
  · rw [if_pos h12]; exact hstring
  rw [if_neg h12]
  by_cases h13 : isnum c = true ∨ (c = 46 ∧ isnum nx = true)
  · rw [if_pos h13]; exact hnumber
  rw [if_neg h13]
  by_cases h14 : c = 46
  · rw [if_pos h14]; exact hdot
  rw [if_neg h14]
  exact hlit

theorem eat_tbrace_line_no (d : tokendef) : (eat_tbrace d).d.line_no = d.line_no :=
  stack_inc_line_no d true

theorem eat_open_line_no (d : tokendef) (t : Int) :
    (eat_open d t).d.line_no = d.line_no :=
  stack_inc_line_no d false

theorem eat_close_line_no (d : tokendef) : (eat_close d).d.line_no = d.line_no :=
  stack_dec_line_no d

theorem eat_close_brace_line_no (d : tokendef) :
    (eat_close_brace d).d.line_no = d.line_no := by
  unfold eat_close_brace
  dsimp only
  split
  · exact stack_dec_line_no d
  · split
    · simpa using stack_dec_line_no d
    · exact stack_dec_line_no d

theorem eat_regexp_line_le (d : tokendef) : d.line_no ≤ (eat_regexp d).d.line_no := by
  unfold eat_regexp
  dsimp only
  exact Nat.le_add_right _ _

theorem eat_slash_line_le (d : tokendef) (v : Int) :
    d.line_no ≤ (eat_slash d v).d.line_no := by
  unfold eat_slash
  split_ifs
  · exact Nat.le_refl _
  · exact eat_regexp_line_le d
  · exact Nat.le_refl _

theorem eat_string_line_le (d : tokendef) (c : Nat) :
    d.line_no ≤ (eat_string d c).d.line_no := by
  unfold eat_string
  dsimp only
  exact Nat.le_add_right _ _

theorem eat_resume_line_le (d : tokendef) : d.line_no ≤ (eat_resume d).d.line_no := by
  unfold eat_resume
  dsimp only
  exact Nat.le_add_right _ _

theorem eat_comment_line_le (d : tokendef) (nx : Nat) :
    d.line_no ≤ (eat_comment d nx).d.line_no := by
  unfold eat_comment
  repeat' split
  all_goals first | exact Nat.le_refl _ | exact Nat.le_add_right _ _

theorem eat_dot_line_no (d : tokendef) (nx : Nat) :
    (eat_dot d nx).d.line_no = d.line_no := by
  unfold eat_dot
  split <;> rfl

theorem eat_lit_line_no (d : tokendef) (c : Nat) :
    (eat_lit d c).d.line_no = d.line_no := by
  unfold eat_lit
  dsimp only
  split <;> rfl

theorem eat_dispatch_line_le (d : tokendef) (v : Int) (c nx : Nat) :
    d.line_no ≤ (eat_dispatch d v c nx).d.line_no := by
  refine eat_dispatch_elim d v c nx (fun r => d.line_no ≤ r.d.line_no)
    (fun t => Nat.le_refl _) (fun t => Nat.le_of_eq (eat_open_line_no d t).symm)
    (Nat.le_of_eq (eat_close_line_no d).symm)
    (Nat.le_of_eq (eat_close_brace_line_no d).symm)
    (eat_slash_line_le d v) (Nat.le_refl _) (eat_string_line_le d c)
    (Nat.le_refl _) (Nat.le_of_eq (eat_dot_line_no d nx).symm)
    (Nat.le_of_eq (eat_lit_line_no d c).symm)

/-- A single `eat_token` call never decreases the line counter. -/
theorem eat_line_le (d0 : tokendef) (v : Int) :
    d0.line_no ≤ (eat_token d0 v).d.line_no := by
  unfold eat_token
  dsimp only
  split
  · exact Nat.le_refl _
  · split
    · exact Nat.le_of_eq (eat_tbrace_line_no { d0 with flag := 0 }).symm
    · split
      · exact eat_resume_line_le { d0 with flag := 0 }
      · split
        · exact eat_comment_line_le { d0 with flag := 0 }
            (peek_char { d0 with flag := 0 } 1)
        · exact eat_dispatch_line_le { d0 with flag := 0 } v
            (peek_char { d0 with flag := 0 } 0) (peek_char { d0 with flag := 0 } 1)

theorem wsState_line_le (d : tokendef) : d.line_no ≤ (wsState d).line_no := by
  rw [wsState_line_no]
  have h := (skipWs_spec d.buf (d.buf.length + 1) d.curr d.line_no (by omega)).2.2.2
  omega

/-- A single `prsr_next_token` call never decreases the line counter,
and the emitted token's line lies between the line counters before and
after the call. -/
theorem prsr_line_le (d : tokendef) (v : Int) :
    d.line_no ≤ (prsr_next_token d v).d.line_no
      ∧ (∀ t, (prsr_next_token d v).tok = some t →
          d.line_no ≤ t.line_no ∧ t.line_no ≤ (prsr_next_token d v).d.line_no) := by
  have hws : d.line_no ≤ (wsState d).line_no := wsState_line_le d
  have heat : (wsState d).line_no ≤ (eat_token (wsState d) v).d.line_no :=
    eat_line_le (wsState d) v
  unfold prsr_next_token
  dsimp only
  split
  · exact ⟨by dsimp only; omega, fun t ht => by simp at ht⟩
  · split
    · exact ⟨by dsimp only; omega, fun t ht => by simp at ht⟩
    · constructor
      · dsimp only; omega
      · intro t ht
        cases ht
        dsimp only
        exact ⟨hws, heat⟩

/-- Every token line emitted by a run is at least the starting line. -/
theorem runN_lines_ge (o : Nat → Int) :
    ∀ (n : Nat) (d : tokendef) (k x : Nat),
      x ∈ tokenLines (runN o n d k).1 → d.line_no ≤ x := by
  intro n
  induction n with
  | zero => intro d k x hx; simp [runN, tokenLines] at hx
  | succ m ih =>
    intro d k x hx
    simp only [runN] at hx
    have hd := prsr_line_le d (o k)
    cases htok : (prsr_next_token d (o k)).tok with
    | none =>
      simp only [tokenLines, List.filterMap_cons, htok, Option.map_none'] at hx
      exact le_trans hd.1 (ih _ _ x hx)
    | some t =>
      simp only [tokenLines, List.filterMap_cons, htok, Option.map_some'] at hx
      rcases List.mem_cons.mp hx with rfl | hx2
      · exact (hd.2 t htok).1
      · exact le_trans hd.1 (ih _ _ x hx2)

/-- The token lines of a run form a non-decreasing chain. -/
theorem runN_lines_chain (o : Nat → Int) :
    ∀ (n : Nat) (d : tokendef) (k : Nat),
      List.Chain' (· ≤ ·) (tokenLines (runN o n d k).1) := by
  intro n
  induction n with
  | zero => intro d k; simp [runN, tokenLines]
  | succ m ih =>
    intro d k
    simp only [runN]
    have hd := prsr_line_le d (o k)
    cases htok : (prsr_next_token d (o k)).tok with
    | none =>
      simp only [tokenLines, List.filterMap_cons, htok, Option.map_none']
      exact ih _ _
    | some t =>
      simp only [tokenLines, List.filterMap_cons, htok, Option.map_some']
      refine List.chain'_cons'.mpr ⟨?_, ih _ _⟩
      intro y hy
      have hmem : y ∈ tokenLines (runN o m (prsr_next_token d (o k)).d
          (k + (prsr_next_token d (o k)).consults)).1 :=
        List.mem_of_mem_head? hy
      exact le_trans ((hd.2 t htok).2) (runN_lines_ge o m _ _ y hmem)

/-- C7 (amended).  The claim's equality `line_no = 1 + count of
newlines strictly before the token` fails on the code (newlines inside
an unterminated block comment — and inside backslash escapes of LIT
tokens — are not counted; see the counterexample), but the
monotonicity half holds: over any run, the line numbers of the emitted
tokens never decrease, across multi-line comments, strings, template
literals and regular expressions alike. -/
theorem c7_line_no_monotone (buf : List Nat) (o : Nat → Int) (n : Nat) :
    List.Chain' (· ≤ ·) (tokenLines (runN o n (prsr_init_token buf) 0).1) :=
  runN_lines_chain o n (prsr_init_token buf) 0

end Prsr
